import Mathlib

/-!
Verification of the plagiarism-checker core (`plagiarism_checker_web.py`).

This file gives a shallow embedding of the program: the Python string
helpers it relies on (`str.strip`, `str.lower`, `str.split`), the
self-repetition detector `check_self_plagiarism`, the external detector
wrappers `check_sentence_academic` / `check_sentence_web`, the main
match-aggregation loop, the summary arithmetic, and the two report
projections (`generate_highlighted_text`, `generate_report_content`),
followed by theorems settling the specified properties.

External collaborators (HTTP services, the NLTK tokenizers, the uploaded
file) are modelled as explicit inputs: detector outcomes are passed as
functions from a sentence to a result, tokenizers as functions from text
to token lists, and the file read as an outcome value.  Detector
invocations performed by the aggregation loop are recorded in an explicit
call log so that "detector X is (not) invoked" becomes a provable
statement.
-/

/-- Python `str.strip()`: drop leading and trailing whitespace. -/
def pyStrip (s : String) : String :=
  String.mk (((s.data.dropWhile Char.isWhitespace).reverse.dropWhile Char.isWhitespace).reverse)

/-- Python `str.lower()`: lower-case every character. -/
def pyLower (s : String) : String := String.mk (s.data.map Char.toLower)

/-- Helper for `pySplit`: scan the characters, accumulating the current word
(reversed) and emitting it when whitespace or the end is reached. -/
def pySplitAux : List Char → List Char → List String
  | [], [] => []
  | [], acc => [String.mk acc.reverse]
  | c :: cs, acc =>
    if c.isWhitespace then
      match acc with
      | [] => pySplitAux cs []
      | _ => String.mk acc.reverse :: pySplitAux cs []
    else pySplitAux cs (c :: acc)

/-- Python `str.split()` with no argument: split on runs of whitespace,
producing no empty words. -/
def pySplit (s : String) : List String := pySplitAux s.data []

/-- `sentence.strip().lower()` — the normalized form used as the
self-repetition grouping key (source line 48). -/
def pyNormalize (s : String) : String := pyLower (pyStrip s)

/-- The academic source payload `{title, authors, url}` returned by
`check_sentence_academic` (source line 74). -/
structure AcademicSource where
  title : String
  authors : String
  url : String
deriving Repr, DecidableEq

/-- One entry of the result list `all_matches`: the three dict shapes
appended at source lines 55-58 (self-plagiarism), 182-185 (academic) and
191-194 (web).  `selfPlag` has keys `sentence`, `lines`, `type`, `source`;
the external kinds have keys `sentence`, `line_num`, `type`,
`source_details`. -/
inductive MatchRecord where
  | selfPlag (sentence : String) (lines : List Nat) (source : String)
  | academic (sentence : String) (line_num : Nat) (source_details : AcademicSource)
  | web (sentence : String) (line_num : Nat) (source_details : String)
deriving Repr, DecidableEq

/-- The `match['sentence']` field common to all three record shapes. -/
def sentenceOf : MatchRecord → String
  | .selfPlag s _ _ => s
  | .academic s _ _ => s
  | .web s _ _ => s

/-- The `match['type']` field of each record shape. -/
def typeStr : MatchRecord → String
  | .selfPlag _ _ _ => "Self-Plagiarism"
  | .academic _ _ _ => "Academic Match"
  | .web _ _ _ => "Web Match"

/-! ## Self-repetition detector (`check_self_plagiarism`, source lines 43-59)

Python's `defaultdict(list)` keyed by the normalized sentence is embedded
as an insertion-ordered association list `List (String × List Nat)`:
appending an index to an existing key keeps the key's position, a new key
is appended at the end — exactly the iteration order of a Python dict. -/

/-- `seen_sentences[key].append(i)` on an insertion-ordered association list. -/
def seenInsert : List (String × List Nat) → String → Nat → List (String × List Nat)
  | [], k, i => [(k, [i])]
  | p :: rest, k, i =>
    if p.1 = k then (p.1, p.2 ++ [i]) :: rest else p :: seenInsert rest k i

/-- One iteration of the first loop of `check_self_plagiarism`
(source lines 47-50): record index `p.1` under the normalized form of
sentence `p.2` when its word count exceeds 8. -/
def selfStep (m : List (String × List Nat)) (p : Nat × String) : List (String × List Nat) :=
  let normalized_sentence := pyNormalize p.2
  if 8 < (pySplit normalized_sentence).length then seenInsert m normalized_sentence p.1 else m

/-- The finished `seen_sentences` map: first loop of `check_self_plagiarism`
over `enumerate(sentences, 1)`. -/
def buildSeen (sentences : List String) : List (String × List Nat) :=
  (List.enumFrom 1 sentences).foldl selfStep []

/-- `next((s for s in sentences if s.strip().lower() == sentence_key), sentence_key)`
(source line 54). -/
def firstOriginal (sentences : List String) (key : String) : String :=
  ((sentences.find? fun s => pyNormalize s == key).getD key)

/-- `check_self_plagiarism(sentences)` (source lines 43-59): group sentences
of more than 8 words by normalized form, and emit one record per form seen
more than once, carrying the first matching original sentence, the list of
1-based occurrence lines, and an occurrence-count message as `source`. -/
def check_self_plagiarism (sentences : List String) : List MatchRecord :=
  (buildSeen sentences).filterMap fun p =>
    if 1 < p.2.length then
      some (MatchRecord.selfPlag (firstOriginal sentences p.1) p.2
        ("Repeated " ++ toString p.2.length ++ " times in the document."))
    else none

/-- The 1-based positions at which `key` occurs as a normalized sentence —
the specification-side description of a normalized form's occurrence set. -/
def positionsOf (sentences : List String) (key : String) : List Nat :=
  (List.enumFrom 1 sentences).filterMap fun p =>
    if pyNormalize p.2 = key then some p.1 else none

/-! ## Academic detector (`check_sentence_academic`, source lines 61-77)

The HTTP interaction is modelled by its observable outcome.  A
`requestFailure` stands for any `requests.RequestException` raised by
`requests.get`, `raise_for_status` or `response.json()` — connection
errors, timeouts, non-success HTTP statuses, undecodable bodies — all of
which the `except requests.RequestException` handler absorbs.  A `success`
carries the decoded JSON: `total` and `data` are optional because
`results.get(...)` tolerates their absence, and the per-paper `title`,
`authors` (a list of author objects, each with an optional `name`) and
`url` fields are optional because `paper['title']`, `author['name']`,
`paper['url']` raise `KeyError` when missing.  The embedding returns
`Except String` so that an uncaught Python exception is an `error`. -/

/-- A paper object from the JSON `data` array: fields accessed by the code,
each possibly absent. -/
structure PaperJson where
  title : Option String
  authors : Option (List (Option String))
  url : Option String
deriving Repr, DecidableEq

/-- The decoded JSON body of a successful academic-search response. -/
structure AcademicResponse where
  total : Option Int
  data : Option (List PaperJson)
deriving Repr, DecidableEq

/-- The observable outcome of the academic service call. -/
inductive AcademicServiceOutcome where
  | requestFailure
  | success (results : AcademicResponse)
deriving Repr, DecidableEq

/-- Python subscript `d[key]` on an optional field: the value when present,
`KeyError` otherwise. -/
def pyGetKey {α : Type} (o : Option α) (key : String) : Except String α :=
  match o with
  | some v => Except.ok v
  | none => Except.error ("KeyError: " ++ key)

/-- `", ".join([author['name'] for author in paper.get('authors', [])])`
(source line 73). -/
def joinAuthors (authors : List (Option String)) : Except String String := do
  let names ← authors.mapM fun a => pyGetKey a "name"
  return String.intercalate ", " names

/-- `check_sentence_academic` (source lines 61-77) as a function of the
service outcome for the queried sentence.  The guard mirrors
`results.get('total', 0) > 0 and results.get('data')` (Python truthiness:
a missing or empty `data` is falsy); on a hit it builds
`{"title": paper['title'], "authors": authors, "url": paper['url']}`,
where the author join runs first (line 73), so a `KeyError` from a missing
`name` precedes one from a missing `title`, which precedes one from a
missing `url`. -/
def check_sentence_academic (outcome : AcademicServiceOutcome) :
    Except String (Option AcademicSource) :=
  match outcome with
  | .requestFailure => Except.ok none
  | .success results =>
    if 0 < results.total.getD 0 ∧ results.data.getD [] ≠ [] then
      match results.data.getD [] with
      | paper :: _ => do
          let authors ← joinAuthors (paper.authors.getD [])
          let title ← pyGetKey paper.title "title"
          let url ← pyGetKey paper.url "url"
          return some { title := title, authors := authors, url := url }
      | [] => Except.ok none
    else Except.ok none

/-- The observable outcome of the web search call: `failure` stands for any
exception inside `check_sentence_web` (all are caught by its bare
`except`), `found` for the list returned by `search(...)`. -/
inductive WebServiceOutcome where
  | failure
  | found (results : List String)
deriving Repr, DecidableEq

/-- `check_sentence_web` (source lines 79-88): first search result if any;
every failure is absorbed to `None`. -/
def check_sentence_web (outcome : WebServiceOutcome) : Option String :=
  match outcome with
  | .failure => none
  | .found [] => none
  | .found (r :: _) => some r

/-! ## Match-aggregation loop (source lines 167-196)

The loop body is embedded as a fold over `enumerate(sentences, 1)`.  The
two detector calls are abstracted by their returned values — functions
`acad : String → Option AcademicSource` and `web : String → Option String`
standing for `check_sentence_academic` / `check_sentence_web` on the
sentence (deterministic detector stubs, as in the specification's testable
properties).  Every performed detector invocation is additionally logged. -/

/-- A logged detector invocation: which detector, at which 1-based sentence
index, on which (stripped) sentence. -/
inductive DetectorCall where
  | acadCall (line_num : Nat) (sentence : String)
  | webCall (line_num : Nat) (sentence : String)
deriving Repr, DecidableEq

/-- The loop state: `all_matches` (seeded with the self-repetition records,
source line 168), the `matched_sentences_for_external_check` set (a list,
used only through membership; source line 171), and the instrumentation
log of detector invocations. -/
structure LoopState where
  all_matches : List MatchRecord
  matched_sentences_for_external_check : List String
  calls : List DetectorCall
deriving Repr, DecidableEq

/-- One iteration of the aggregation loop (source lines 173-195): skip when
the stripped sentence has fewer than 10 words or was already matched
externally; otherwise query the academic detector and, only if it returns
nothing, the web detector; record a match under the current index and add
the stripped sentence to the matched set. -/
def externalCheckStep (acad : String → Option AcademicSource)
    (web : String → Option String) (st : LoopState) (p : Nat × String) : LoopState :=
  let line_num := p.1
  let clean_sentence := pyStrip p.2
  if (pySplit clean_sentence).length < 10 ∨
      clean_sentence ∈ st.matched_sentences_for_external_check then
    st
  else
    match acad clean_sentence with
    | some academic_match =>
      { all_matches :=
          st.all_matches ++ [MatchRecord.academic clean_sentence line_num academic_match],
        matched_sentences_for_external_check :=
          st.matched_sentences_for_external_check ++ [clean_sentence],
        calls := st.calls ++ [DetectorCall.acadCall line_num clean_sentence] }
    | none =>
      match web clean_sentence with
      | some web_match_url =>
        { all_matches :=
            st.all_matches ++ [MatchRecord.web clean_sentence line_num web_match_url],
          matched_sentences_for_external_check :=
            st.matched_sentences_for_external_check ++ [clean_sentence],
          calls := st.calls ++ [DetectorCall.acadCall line_num clean_sentence,
            DetectorCall.webCall line_num clean_sentence] }
      | none =>
        { st with calls := st.calls ++ [DetectorCall.acadCall line_num clean_sentence,
            DetectorCall.webCall line_num clean_sentence] }

/-- The complete aggregation over a sentence sequence (source lines
167-196): seed `all_matches` with `check_self_plagiarism(sentences)`, then
run the external-check loop over `enumerate(sentences, 1)`. -/
def run_analysis_core (acad : String → Option AcademicSource)
    (web : String → Option String) (sentences : List String) : LoopState :=
  (List.enumFrom 1 sentences).foldl (externalCheckStep acad web)
    { all_matches := check_self_plagiarism sentences,
      matched_sentences_for_external_check := [],
      calls := [] }

/-! ## Summary arithmetic (source lines 199-201) -/

/-- `(matches_count / total_sentences * 100) if total_sentences > 0 else 0`
(source line 200), over exact rationals. -/
def similarity_percentage (matches_count total_sentences : Nat) : ℚ :=
  if 0 < total_sentences then (matches_count : ℚ) / (total_sentences : ℚ) * 100 else 0

/-- `100 - similarity_percentage` (source line 201). -/
def originality_percentage (matches_count total_sentences : Nat) : ℚ :=
  100 - similarity_percentage matches_count total_sentences

/-! ## Highlight view (`generate_highlighted_text`, source lines 90-100) -/

/-- The visual-emphasis marker wrapped around a flagged sentence
(source line 97). -/
def highlightSpan (sentence : String) : String :=
  "<span style='background-color: #ffcccb; padding: 2px 4px; border-radius: 3px;'>"
    ++ sentence ++ "</span>"

/-- The per-sentence body of the highlight loop (source lines 94-99):
wrap the original sentence when its stripped text is in the flagged set. -/
def highlightPart (plagiarized_sentences : List String) (sentence : String) : String :=
  if pyStrip sentence ∈ plagiarized_sentences then highlightSpan sentence else sentence

/-- `generate_highlighted_text` (source lines 90-100): flag set is the
stripped `sentence` field of every match; parts joined by a space. -/
def generate_highlighted_text (sentences : List String) (match_list : List MatchRecord) : String :=
  let plagiarized_sentences := match_list.map fun m => pyStrip (sentenceOf m)
  String.intercalate " " (sentences.map (highlightPart plagiarized_sentences))

/-! ## Export report (`generate_report_content`, source lines 102-126) -/

/-- The lines appended for the `i`-th match (source lines 112-125).  A
self-plagiarism record has no `source_details` key, so the
`if 'source_details' in match` block emits nothing for it — in particular
its `source` field (the repetition-count message) is never emitted. -/
def reportMatchLines (p : Nat × MatchRecord) : List String :=
  ["\nMatch #" ++ toString p.1,
   "  Sentence: \"" ++ sentenceOf p.2 ++ "\"",
   "  Type: " ++ typeStr p.2] ++
  (match p.2 with
   | .selfPlag _ lines _ =>
     ["  Found on lines: " ++ String.intercalate ", " (lines.map toString)]
   | .academic _ line_num d =>
     ["  Found on line: " ++ toString line_num,
      "  Source: [" ++ d.title ++ "](" ++ d.url ++ ")",
      "  Authors: " ++ d.authors]
   | .web _ line_num url =>
     ["  Found on line: " ++ toString line_num,
      "  Source: " ++ url])

/-- `generate_report_content` (source lines 102-126) with the generation
timestamp supplied as an input (the code takes it from `datetime.now()`)
and the summary dict as an ordered key/value list. -/
def generate_report_content (timestamp : String) (match_list : List MatchRecord)
    (summary_stats : List (String × String)) : String :=
  String.intercalate "\n"
    (["--- Plagiarism Check Report ---",
      "Generated on: " ++ timestamp,
      "\n--- Summary ---"] ++
     summary_stats.map (fun p => p.1 ++ ": " ++ p.2) ++
     ["\n--- Detailed Findings ---"] ++
     (if match_list.isEmpty then ["No potential plagiarism matches were found."]
      else (List.enumFrom 1 match_list).flatMap reportMatchLines))

/-! ## Top-level flow (source lines 24-41 and 159-207) -/

/-- The observable outcome of reading the uploaded file: the extracted text
(possibly empty), or the exception raised while reading. -/
inductive ReadOutcome where
  | extractedText (text : String)
  | readFailure (reason : String)
deriving Repr, DecidableEq

/-- The result of `read_document` (source lines 24-41): on an exception,
`st.error(...)` is shown and `None` is returned. -/
structure ReadResult where
  text : Option String
  error_message : Option String
deriving Repr, DecidableEq

/-- `read_document` (source lines 24-41) as a function of the read outcome. -/
def read_document : ReadOutcome → ReadResult
  | .extractedText t => { text := some t, error_message := none }
  | .readFailure reason =>
    { text := none,
      error_message := some ("ERROR: Could not read file. Reason: " ++ reason) }

/-- The analysis results displayed after a successful run
(source lines 163-207). -/
structure AnalysisOutput where
  total_sentences : Nat
  total_words : Nat
  all_matches : List MatchRecord
  matches_count : Nat
  similarity : ℚ
  originality : ℚ
deriving Repr, DecidableEq

/-- The external-check loop of source lines 173-195 with the academic
call's uncaught-exception path made explicit: here `acad` is the returned
value of `check_sentence_academic` on the queried sentence, including its
`Except.error` outcomes (an uncaught `KeyError` on a malformed response).
Since the loop body does not catch anything, such an error aborts the
whole loop — and with it the script run — exactly as an uncaught Python
exception would.  An `ok` academic outcome is handled as in
`externalCheckStep`. -/
def externalChecksExc (acad : String → Except String (Option AcademicSource))
    (web : String → Option String) :
    List (Nat × String) → LoopState → Except String LoopState
  | [], st => Except.ok st
  | p :: rest, st =>
    let line_num := p.1
    let clean_sentence := pyStrip p.2
    if (pySplit clean_sentence).length < 10 ∨
        clean_sentence ∈ st.matched_sentences_for_external_check then
      externalChecksExc acad web rest st
    else
      match acad clean_sentence with
      | Except.error e => Except.error e
      | Except.ok (some academic_match) =>
        externalChecksExc acad web rest
          { all_matches := st.all_matches ++
              [MatchRecord.academic clean_sentence line_num academic_match],
            matched_sentences_for_external_check :=
              st.matched_sentences_for_external_check ++ [clean_sentence],
            calls := st.calls ++ [DetectorCall.acadCall line_num clean_sentence] }
      | Except.ok none =>
        match web clean_sentence with
        | some web_match_url =>
          externalChecksExc acad web rest
            { all_matches := st.all_matches ++
                [MatchRecord.web clean_sentence line_num web_match_url],
              matched_sentences_for_external_check :=
                st.matched_sentences_for_external_check ++ [clean_sentence],
              calls := st.calls ++ [DetectorCall.acadCall line_num clean_sentence,
                DetectorCall.webCall line_num clean_sentence] }
        | none =>
          externalChecksExc acad web rest
            { st with calls := st.calls ++ [DetectorCall.acadCall line_num clean_sentence,
                DetectorCall.webCall line_num clean_sentence] }

/-- The top-level run (source lines 159-207): read the document; if the
text is `None` or empty (Python truthiness of `if document_text:`) nothing
further happens; otherwise tokenize, run the aggregation loop and compute
the summary.  The academic detector is passed with its full
`check_sentence_academic` result type, so an uncaught `KeyError` from a
malformed academic response propagates out of the run as an
`Except.error` — the script has no handler around the loop.  On a
non-raising run, returns the produced output (if any), the
detector-invocation log, and the displayed error message (if any). -/
def run_app (sent_tokenize word_tokenize : String → List String)
    (acad : String → Except String (Option AcademicSource)) (web : String → Option String)
    (file : ReadOutcome) :
    Except String (Option AnalysisOutput × List DetectorCall × Option String) :=
  let rr := read_document file
  match rr.text with
  | none => Except.ok (none, [], rr.error_message)
  | some document_text =>
    if document_text = "" then Except.ok (none, [], rr.error_message)
    else
      let sentences := sent_tokenize document_text
      let words := word_tokenize document_text
      match externalChecksExc acad web (List.enumFrom 1 sentences)
          { all_matches := check_self_plagiarism sentences,
            matched_sentences_for_external_check := [],
            calls := [] } with
      | Except.error e => Except.error e
      | Except.ok st =>
        let matches_count := st.all_matches.length
        Except.ok (some { total_sentences := sentences.length,
                          total_words := words.length,
                          all_matches := st.all_matches,
                          matches_count := matches_count,
                          similarity := similarity_percentage matches_count sentences.length,
                          originality := originality_percentage matches_count sentences.length },
          st.calls, rr.error_message)

/-- A stub academic detector that always reports the match
`{title: "T", authors: "A", url: "U"}`. -/
def acadStubAlways : String → Option AcademicSource := fun _ => some ⟨"T", "A", "U"⟩

/-- A stub academic detector that never matches. -/
def acadStubNone : String → Option AcademicSource := fun _ => none

/-- A stub web detector that never matches. -/
def webStubNone : String → Option String := fun _ => none

/-- An academic-detector environment whose service call succeeds but
returns a field-less paper object, on which `check_sentence_academic`
raises `KeyError: 'title'`. -/
def acadStubMalformed : String → Except String (Option AcademicSource) :=
  fun _ => check_sentence_academic (AcademicServiceOutcome.success
    { total := some 1, data := some [{ title := none, authors := some [], url := none }] })

/-! ## Definitions used by the verification statements -/

/-- A 10-word sentence used as a concrete qualifying input. -/
def longDup : String := "alpha beta gamma delta epsilon zeta eta theta iota kappa"

/-- The same 10-word sentence with the first letter upper-cased: equal to
`longDup` after normalization, different from it as stripped text. -/
def longDupUpper : String := "Alpha beta gamma delta epsilon zeta eta theta iota kappa"

/-- Whether a record is an external (academic or web) match for the stripped
sentence text `t`. -/
def isExternalFor (t : String) : MatchRecord → Bool
  | .academic s _ _ => s == t
  | .web s _ _ => s == t
  | .selfPlag _ _ _ => false

/-- Number of external records for stripped text `t` in a match list. -/
def externalCount (ms : List MatchRecord) (t : String) : Nat :=
  (ms.filter (isExternalFor t)).length

/-- The dedup invariant: at most one external record per stripped sentence
text, and any externally recorded text is in the dedup set. -/
def DedupInv (st : LoopState) : Prop :=
  ∀ t, externalCount st.all_matches t ≤ 1 ∧
    (1 ≤ externalCount st.all_matches t → t ∈ st.matched_sentences_for_external_check)

/-- The priority invariant: a web call happens only after an academic call
on the same sentence returned nothing, and a successful academic lookup on
a queried sentence is recorded in the result list under its index. -/
def PriorityInv (acad : String → Option AcademicSource) (st : LoopState) : Prop :=
  (∀ i s, DetectorCall.webCall i s ∈ st.calls →
    acad s = none ∧ DetectorCall.acadCall i s ∈ st.calls) ∧
  (∀ i s am, DetectorCall.acadCall i s ∈ st.calls → acad s = some am →
    MatchRecord.academic s i am ∈ st.all_matches)

/-- The word-count invariant of logged detector calls. -/
def CallThresholdInv (st : LoopState) : Prop :=
  ∀ i s, (DetectorCall.acadCall i s ∈ st.calls ∨ DetectorCall.webCall i s ∈ st.calls) →
    10 ≤ (pySplit s).length

/-- The specification-side description of one export entry (amended): the
entry for the `i`-th match carries its kind, its sentence text, its
position(s), and its kind-specific source details — occurrence lines for a
self-repetition match (the repetition count is not part of the entry),
line plus title/url and authors for an academic match, line plus url for a
web match. -/
def specEntryLines (i : Nat) (m : MatchRecord) : List String :=
  match m with
  | .selfPlag text lines _src =>
    ["\nMatch #" ++ toString i,
     "  Sentence: \"" ++ text ++ "\"",
     "  Type: Self-Plagiarism",
     "  Found on lines: " ++ String.intercalate ", " (lines.map toString)]
  | .academic text pos d =>
    ["\nMatch #" ++ toString i,
     "  Sentence: \"" ++ text ++ "\"",
     "  Type: Academic Match",
     "  Found on line: " ++ toString pos,
     "  Source: [" ++ d.title ++ "](" ++ d.url ++ ")",
     "  Authors: " ++ d.authors]
  | .web text pos url =>
    ["\nMatch #" ++ toString i,
     "  Sentence: \"" ++ text ++ "\"",
     "  Type: Web Match",
     "  Found on line: " ++ toString pos,
     "  Source: " ++ url]

/-- Sequential numbering of the entries, starting at `i`. -/
def specEntries : Nat → List MatchRecord → List String
  | _, [] => []
  | i, m :: rest => specEntryLines i m ++ specEntries (i + 1) rest

/-- The export document as the (amended) specification describes it: a
header line, a generation-timestamp line, a summary block with every
summary field as a `key: value` line, then — unless there is no match, in
which case a fixed no-findings line — one sequentially numbered entry per
match record as given by `specEntryLines`, all joined flat by newlines. -/
def report_spec (timestamp : String) (match_list : List MatchRecord)
    (summary_stats : List (String × String)) : String :=
  String.intercalate "\n"
    (["--- Plagiarism Check Report ---",
      "Generated on: " ++ timestamp,
      "\n--- Summary ---"] ++
     summary_stats.map (fun p => p.1 ++ ": " ++ p.2) ++
     ["\n--- Detailed Findings ---"] ++
     (if match_list = [] then ["No potential plagiarism matches were found."]
      else specEntries 1 match_list))

/-- Association-list lookup, mirroring Python dict access on the embedded
`seen_sentences` map. -/
def lookupSeen : List (String × List Nat) → String → Option (List Nat)
  | [], _ => none
  | p :: rest, k => if p.1 = k then some p.2 else lookupSeen rest k

/-- The keys of the embedded map, in insertion order. -/
def keysOf (m : List (String × List Nat)) : List String := m.map Prod.fst

/-- The 1-based positions (counting from `start`) at which `key` occurs as
a normalized sentence in `l`. -/
def positionsFrom (start : Nat) (l : List String) (key : String) : List Nat :=
  (List.enumFrom start l).filterMap fun p =>
    if pyNormalize p.2 = key then some p.1 else none

/-- The record built from one entry of the `seen_sentences` map in the
second loop of `check_self_plagiarism` (source lines 52-58). -/
def selfRecordOf (sentences : List String) (p : String × List Nat) : Option MatchRecord :=
  if 1 < p.2.length then
    some (MatchRecord.selfPlag (firstOriginal sentences p.1) p.2
      ("Repeated " ++ toString p.2.length ++ " times in the document."))
  else none

/-- Whether a record's normalized sentence text is `key`. -/
def matchesNormalized (key : String) (r : MatchRecord) : Bool :=
  pyNormalize (sentenceOf r) == key

/-- The worked scenario from the specification's testable properties: four
sentences with the long one duplicated at positions 2 and 4. -/
def scenarioSentences : List String :=
  ["This is a short test.",
   "This exact long sentence appears twice in this very document for testing.",
   "Some other unrelated content goes here for padding purposes.",
   "This exact long sentence appears twice in this very document for testing."]

/-- The normalized form of the duplicated scenario sentence. -/
def scenarioKey : String :=
  "this exact long sentence appears twice in this very document for testing."

/-! ## Generic loop-invariant lemma for the aggregation fold -/

/-- An invariant preserved by every iteration of the external-check loop
holds of the final state. -/
theorem foldl_externalCheckStep_inv {acad : String → Option AcademicSource}
    {web : String → Option String} {P : LoopState → Prop}
    (hstep : ∀ st p, P st → P (externalCheckStep acad web st p)) :
    ∀ (l : List (Nat × String)) (st : LoopState), P st →
      P (l.foldl (externalCheckStep acad web) st) := by
  intro l
  induction l with
  | nil => intro st h; exact h
  | cons p rest ih => intro st h; exact ih _ (hstep st p h)

/-- C7 — Summary arithmetic: similarity is `matches / total * 100` (zero for
an empty document), originality is its complement to 100; in particular an
empty document reads 0% similar / 100% original, and a fully matched
document (`matches = total > 0`) reads 100% similar / 0% original. -/
theorem summary_arithmetic (m t : Nat) :
    (t = 0 → similarity_percentage m t = 0 ∧ originality_percentage m t = 100) ∧
    (0 < t → similarity_percentage m t = (m : ℚ) / (t : ℚ) * 100) ∧
    originality_percentage m t = 100 - similarity_percentage m t ∧
    (m = t → 0 < t → similarity_percentage m t = 100 ∧ originality_percentage m t = 0) := by
  refine ⟨?_, ?_, rfl, ?_⟩
  · rintro rfl
    constructor
    · simp [similarity_percentage]
    · simp [originality_percentage, similarity_percentage]
  · intro ht
    simp [similarity_percentage, ht]
  · rintro rfl ht
    have h0 : (m : ℚ) ≠ 0 := by exact_mod_cast Nat.pos_iff_ne_zero.mp ht
    have hsim : similarity_percentage m m = 100 := by
      simp [similarity_percentage, ht]
      field_simp
    exact ⟨hsim, by simp [originality_percentage, hsim]⟩

/-- Witness for `summary_arithmetic` at the empty document and at a fully
matched two-sentence document. -/
theorem summary_arithmetic_witness :
    (similarity_percentage 0 0 = 0 ∧ originality_percentage 0 0 = 100) ∧
    (similarity_percentage 2 2 = 100 ∧ originality_percentage 2 2 = 0) :=
  ⟨(summary_arithmetic 0 0).1 rfl, (summary_arithmetic 2 2).2.2.2 rfl (by decide)⟩

/-- C4 counterexample — a service call that *succeeds* but returns a
malformed body (`total = 1`, one paper object carrying no fields) makes
`check_sentence_academic` raise `KeyError: 'title'` instead of returning
"no match": only `requests.RequestException` is caught, not `KeyError`. -/
theorem academic_malformed_response_raises :
    check_sentence_academic (AcademicServiceOutcome.success
      { total := some 1, data := some [{ title := none, authors := some [], url := none }] }) =
      Except.error "KeyError: title" := by rfl

/-- C4 (amended) — failures of the request itself (network error, timeout,
HTTP error status, undecodable body — everything surfaced as a
`requests.RequestException`) are absorbed to "no match" (`ok none`), as is
a successful response with a non-positive `total` or a missing/empty
`data` array; no retry is performed (the function is a single lookup). -/
theorem academic_error_absorption :
    check_sentence_academic AcademicServiceOutcome.requestFailure = Except.ok none ∧
    (∀ results : AcademicResponse,
      results.total.getD 0 ≤ 0 ∨ results.data.getD [] = [] →
      check_sentence_academic (AcademicServiceOutcome.success results) = Except.ok none) := by
  refine ⟨rfl, ?_⟩
  intro results h
  have hneg : ¬(0 < results.total.getD 0 ∧ results.data.getD [] ≠ []) := by
    rintro ⟨h1, h2⟩
    rcases h with h | h
    · omega
    · exact h2 h
  simp [check_sentence_academic, hneg]

/-- Witness for `academic_error_absorption`: a request failure and an empty
successful response both degrade to "no match". -/
theorem academic_error_absorption_witness :
    check_sentence_academic AcademicServiceOutcome.requestFailure = Except.ok none ∧
    check_sentence_academic (AcademicServiceOutcome.success { total := some 0, data := none }) =
      Except.ok none :=
  ⟨academic_error_absorption.1, academic_error_absorption.2 _ (Or.inl (by decide))⟩

/-- C10 — the summary percentages are not clamped: a long sentence
duplicated with differing case self-repeats (one record) and, because the
external dedup set keys on the case-sensitive stripped text, both copies
also match academically (two records), so 3 matches on 2 sentences give a
similarity of 150% and an originality of -50%. -/
theorem similarity_not_clamped :
    (run_analysis_core acadStubAlways webStubNone
        [longDupUpper, longDup]).all_matches.length = 3 ∧
    [longDupUpper, longDup].length = 2 ∧
    similarity_percentage 3 2 = 150 ∧
    100 < similarity_percentage 3 2 ∧
    originality_percentage 3 2 = -50 ∧
    originality_percentage 3 2 < 0 := by
  have hsim : similarity_percentage 3 2 = 150 := by
    simp [similarity_percentage]
    norm_num
  have horig : originality_percentage 3 2 = -50 := by
    simp [originality_percentage, hsim]
    norm_num
  exact ⟨by decide, by decide, hsim, by rw [hsim]; norm_num, horig, by rw [horig]; norm_num⟩

/-- When no academic call raises, the exception-aware loop agrees with the
instrumented fold `externalCheckStep`. -/
theorem externalChecksExc_ok (acad : String → Option AcademicSource)
    (web : String → Option String) :
    ∀ (l : List (Nat × String)) (st : LoopState),
      externalChecksExc (fun s => Except.ok (acad s)) web l st =
        Except.ok (l.foldl (externalCheckStep acad web) st) := by
  intro l
  induction l with
  | nil => intro st; rfl
  | cons p rest ih =>
    intro st
    by_cases hskip : (pySplit (pyStrip p.2)).length < 10 ∨
        pyStrip p.2 ∈ st.matched_sentences_for_external_check
    · simp only [externalChecksExc, List.foldl_cons, externalCheckStep, if_pos hskip]
      exact ih st
    · rcases hacad : acad (pyStrip p.2) with _ | am
      · rcases hweb : web (pyStrip p.2) with _ | url
        · simp only [externalChecksExc, List.foldl_cons, externalCheckStep, if_neg hskip,
            hacad, hweb]
          exact ih _
        · simp only [externalChecksExc, List.foldl_cons, externalCheckStep, if_neg hskip,
            hacad, hweb]
          exact ih _
      · simp only [externalChecksExc, List.foldl_cons, externalCheckStep, if_neg hskip, hacad]
        exact ih _

/-- C9 counterexample — the claim fails on the code: document-read failure
is *not* the only failure that crosses the core/caller boundary.  On a
successfully read document, the uncaught `KeyError` raised by
`check_sentence_academic` on a malformed academic response propagates
unhandled through the aggregation loop to the caller and aborts the run. -/
theorem read_failure_not_only_boundary_failure :
    run_app (fun _ => [longDup]) (fun _ => []) acadStubMalformed webStubNone
      (ReadOutcome.extractedText "x") = Except.error "KeyError: title" := by rfl

/-- C9 (amended) — read-failure atomicity: when reading raises, the error
message is surfaced, no detector is ever invoked, and no output/summary is
produced — this regardless of how the detectors would behave; and when a
nonempty text is read successfully and no academic call raises (the
academic outcomes are all `ok`), the run always completes with an output,
the loop's detector-call log, and no error message.  Read failure is the
only *handled* failure surfaced as a user-facing error message, but not
the only failure that can cross the core/caller boundary: an uncaught
`KeyError` from a malformed academic response also aborts the run
(`read_failure_not_only_boundary_failure`). -/
theorem read_failure_atomicity (sent_tokenize word_tokenize : String → List String)
    (acad : String → Except String (Option AcademicSource)) (web : String → Option String) :
    (∀ reason, run_app sent_tokenize word_tokenize acad web (ReadOutcome.readFailure reason) =
      Except.ok (none, [], some ("ERROR: Could not read file. Reason: " ++ reason))) ∧
    (∀ text (acadPure : String → Option AcademicSource), text ≠ "" →
      acad = (fun s => Except.ok (acadPure s)) →
      ∃ out, run_app sent_tokenize word_tokenize acad web (ReadOutcome.extractedText text) =
        Except.ok (some out,
          (run_analysis_core acadPure web (sent_tokenize text)).calls, none)) := by
  constructor
  · intro reason; rfl
  · intro text acadPure ht hpure
    subst hpure
    simp only [run_app, read_document, if_neg ht, externalChecksExc_ok]
    exact ⟨_, rfl⟩

/-- Witness for `read_failure_atomicity`: a concrete failing read and a
concrete successful, non-raising read. -/
theorem read_failure_atomicity_witness :
    run_app (fun _ => [longDup]) (fun _ => []) (fun s => Except.ok (acadStubNone s)) webStubNone
        (ReadOutcome.readFailure "boom") =
      Except.ok (none, [], some ("ERROR: Could not read file. Reason: " ++ "boom")) ∧
    ∃ out, run_app (fun _ => [longDup]) (fun _ => []) (fun s => Except.ok (acadStubNone s))
        webStubNone (ReadOutcome.extractedText "x") =
      Except.ok (some out,
        (run_analysis_core acadStubNone webStubNone [longDup]).calls, none) := by
  constructor
  · exact (read_failure_atomicity (fun _ => [longDup]) (fun _ => [])
      (fun s => Except.ok (acadStubNone s)) webStubNone).1 "boom"
  · exact (read_failure_atomicity (fun _ => [longDup]) (fun _ => [])
      (fun s => Except.ok (acadStubNone s)) webStubNone).2 "x" acadStubNone (by decide) rfl

/-- C8 — highlight view: the rendering is the space-joined walk of the
original sentences in order, where a sentence is wrapped in the
visual-emphasis marker exactly when its stripped text equals (case
sensitively) some flagged record's stripped sentence text, and passes
through unmodified otherwise; the wrapped form is never identical to the
sentence itself. -/
theorem highlight_correctness (sentences : List String) (match_list : List MatchRecord) :
    generate_highlighted_text sentences match_list =
      String.intercalate " " (sentences.map fun s =>
        if ∃ m ∈ match_list, pyStrip (sentenceOf m) = pyStrip s then highlightSpan s else s) ∧
    ∀ s, highlightSpan s ≠ s := by
  constructor
  · show String.intercalate " "
        (sentences.map (highlightPart (match_list.map fun m => pyStrip (sentenceOf m)))) = _
    congr 1
    apply List.map_congr_left
    intro s _
    unfold highlightPart
    by_cases h : pyStrip s ∈ match_list.map fun m => pyStrip (sentenceOf m)
    · rw [if_pos h, if_pos]
      rw [List.mem_map] at h
      obtain ⟨m, hm, he⟩ := h
      exact ⟨m, hm, he⟩
    · rw [if_neg h, if_neg]
      rintro ⟨m, hm, he⟩
      exact h (List.mem_map.mpr ⟨m, hm, he⟩)
  · intro s heq
    have hlen := congrArg String.length heq
    unfold highlightSpan at hlen
    rw [String.length_append, String.length_append] at hlen
    have hpos : 0 < ("</span>" : String).length := by decide
    omega

/-- Witness for `highlight_correctness`: the marker changes the sentence. -/
theorem highlight_correctness_witness : highlightSpan "x" ≠ "x" :=
  (highlight_correctness [] []).2 "x"

/-! ## Result-set deduplication (C1) -/

theorem externalCount_append_academic (ms : List MatchRecord) (s : String) (i : Nat)
    (am : AcademicSource) (t : String) :
    externalCount (ms ++ [MatchRecord.academic s i am]) t =
      externalCount ms t + (if s = t then 1 else 0) := by
  unfold externalCount
  rw [List.filter_append, List.length_append]
  congr 1
  by_cases h : s = t
  · simp [isExternalFor, h]
  · simp [isExternalFor, h]

theorem externalCount_append_web (ms : List MatchRecord) (s : String) (i : Nat)
    (url : String) (t : String) :
    externalCount (ms ++ [MatchRecord.web s i url]) t =
      externalCount ms t + (if s = t then 1 else 0) := by
  unfold externalCount
  rw [List.filter_append, List.length_append]
  congr 1
  by_cases h : s = t
  · simp [isExternalFor, h]
  · simp [isExternalFor, h]

/-- Every record produced by the self-repetition detector is a `selfPlag`,
so it contributes no external count. -/
theorem externalCount_check_self_plagiarism (sentences : List String) (t : String) :
    externalCount (check_self_plagiarism sentences) t = 0 := by
  unfold externalCount
  rw [List.length_eq_zero, List.filter_eq_nil_iff]
  intro r hr
  unfold check_self_plagiarism at hr
  rw [List.mem_filterMap] at hr
  obtain ⟨p, _, hp⟩ := hr
  split at hp
  · cases hp
    simp [isExternalFor]
  · cases hp

theorem dedupInv_step (acad : String → Option AcademicSource)
    (web : String → Option String) :
    ∀ st p, DedupInv st → DedupInv (externalCheckStep acad web st p) := by
  intro st p hinv
  by_cases hskip : (pySplit (pyStrip p.2)).length < 10 ∨
      pyStrip p.2 ∈ st.matched_sentences_for_external_check
  · simpa only [externalCheckStep, if_pos hskip] using hinv
  · have hnotmem : pyStrip p.2 ∉ st.matched_sentences_for_external_check :=
      fun h => hskip (Or.inr h)
    have hzero : externalCount st.all_matches (pyStrip p.2) = 0 := by
      rcases Nat.eq_zero_or_pos (externalCount st.all_matches (pyStrip p.2)) with h | h
      · exact h
      · exact absurd ((hinv (pyStrip p.2)).2 h) hnotmem
    rcases hacad : acad (pyStrip p.2) with _ | am
    · rcases hweb : web (pyStrip p.2) with _ | url
      · simpa only [externalCheckStep, if_neg hskip, hacad, hweb] using hinv
      · simp only [externalCheckStep, if_neg hskip, hacad, hweb]
        intro t
        rw [externalCount_append_web]
        by_cases ht : pyStrip p.2 = t
        · subst ht
          rw [hzero, if_pos rfl]
          exact ⟨le_refl 1, fun _ => List.mem_append_right _ (List.mem_singleton.mpr rfl)⟩
        · rw [if_neg ht, Nat.add_zero]
          exact ⟨(hinv t).1, fun h => List.mem_append_left _ ((hinv t).2 h)⟩
    · simp only [externalCheckStep, if_neg hskip, hacad]
      intro t
      rw [externalCount_append_academic]
      by_cases ht : pyStrip p.2 = t
      · subst ht
        rw [hzero, if_pos rfl]
        exact ⟨le_refl 1, fun _ => List.mem_append_right _ (List.mem_singleton.mpr rfl)⟩
      · rw [if_neg ht, Nat.add_zero]
        exact ⟨(hinv t).1, fun h => List.mem_append_left _ ((hinv t).2 h)⟩

/-- C1 counterexample — the claim fails on the code: a 10-word sentence
repeated verbatim is flagged by the self-repetition detector *and* still
queried against (and matched by) the academic detector, so the result list
holds two records for one normalized sentence text, and the
self-repetition flag did not suppress the external query. -/
theorem self_flag_does_not_suppress_external :
    1 < ((run_analysis_core acadStubAlways webStubNone [longDup, longDup]).all_matches.filter
        fun r => pyNormalize (sentenceOf r) == pyNormalize longDup).length ∧
    DetectorCall.acadCall 1 longDup ∈
      (run_analysis_core acadStubAlways webStubNone [longDup, longDup]).calls := by
  constructor
  · decide
  · decide

/-- C1 (amended) — the dedup that does hold: after the aggregator
completes, the result list contains at most one *external*
(academic/web) record per distinct *stripped, case-sensitive* sentence
text; self-repetition records are kept separately and do not suppress
external queries, and the dedup key is not case-folded. -/
theorem external_dedup_invariant (acad : String → Option AcademicSource)
    (web : String → Option String) (sentences : List String) :
    ∀ t, externalCount (run_analysis_core acad web sentences).all_matches t ≤ 1 := by
  intro t
  have hbase : DedupInv
      { all_matches := check_self_plagiarism sentences,
        matched_sentences_for_external_check := [],
        calls := [] } := by
    intro u
    constructor
    · rw [externalCount_check_self_plagiarism]
      omega
    · rw [externalCount_check_self_plagiarism]
      omega
  exact ((foldl_externalCheckStep_inv (dedupInv_step acad web) _ _ hbase) t).1

/-! ## Academic priority over the web detector (C6) -/

theorem priorityInv_step (acad : String → Option AcademicSource)
    (web : String → Option String) :
    ∀ st p, PriorityInv acad st → PriorityInv acad (externalCheckStep acad web st p) := by
  intro st p hinv
  obtain ⟨h1, h2⟩ := hinv
  by_cases hskip : (pySplit (pyStrip p.2)).length < 10 ∨
      pyStrip p.2 ∈ st.matched_sentences_for_external_check
  · simpa only [externalCheckStep, if_pos hskip] using ⟨h1, h2⟩
  · rcases hacad : acad (pyStrip p.2) with _ | am
    · have habsorb : ∀ (extra : List MatchRecord),
          PriorityInv acad
            { all_matches := st.all_matches ++ extra,
              matched_sentences_for_external_check :=
                st.matched_sentences_for_external_check ++ [pyStrip p.2],
              calls := st.calls ++ [DetectorCall.acadCall p.1 (pyStrip p.2),
                DetectorCall.webCall p.1 (pyStrip p.2)] } := by
        intro extra
        constructor
        · intro i s hw
          rw [List.mem_append] at hw
          rcases hw with hw | hw
          · obtain ⟨ha, hb⟩ := h1 i s hw
            exact ⟨ha, List.mem_append_left _ hb⟩
          · simp only [List.mem_cons, List.not_mem_nil, or_false,
              DetectorCall.webCall.injEq, reduceCtorEq, false_or] at hw
            obtain ⟨hi, hs⟩ := hw
            subst hi
            subst hs
            exact ⟨hacad, List.mem_append_right _ (by simp)⟩
        · intro i s am' hc hsome
          rw [List.mem_append] at hc
          rcases hc with hc | hc
          · exact List.mem_append_left _ (h2 i s am' hc hsome)
          · simp only [List.mem_cons, List.not_mem_nil, or_false,
              DetectorCall.acadCall.injEq, reduceCtorEq] at hc
            obtain ⟨hi, hs⟩ := hc
            subst hi
            subst hs
            rw [hacad] at hsome
            cases hsome
      rcases hweb : web (pyStrip p.2) with _ | url
      · have h := habsorb []
        rw [List.append_nil] at h
        simpa only [externalCheckStep, if_neg hskip, hacad, hweb] using h
      · simpa only [externalCheckStep, if_neg hskip, hacad, hweb] using
          habsorb [MatchRecord.web (pyStrip p.2) p.1 url]
    · simp only [externalCheckStep, if_neg hskip, hacad]
      constructor
      · intro i s hw
        rw [List.mem_append] at hw
        rcases hw with hw | hw
        · obtain ⟨ha, hb⟩ := h1 i s hw
          exact ⟨ha, List.mem_append_left _ hb⟩
        · simp only [List.mem_singleton, reduceCtorEq] at hw
      · intro i s am' hc hsome
        rw [List.mem_append] at hc
        rcases hc with hc | hc
        · exact List.mem_append_left _ (h2 i s am' hc hsome)
        · simp only [List.mem_singleton, DetectorCall.acadCall.injEq] at hc
          obtain ⟨hi, hs⟩ := hc
          subst hi
          subst hs
          rw [hacad] at hsome
          cases hsome
          exact List.mem_append_right _ (by simp)

/-- C6 — academic priority: the web detector is only ever invoked on a
sentence for which the academic detector returned nothing (and after the
academic detector was invoked on it); when the academic detector matches a
queried sentence, an `AcademicMatch` record with the current 1-based index
is in the result list and the web detector is never invoked for it. -/
theorem academic_priority (acad : String → Option AcademicSource)
    (web : String → Option String) (sentences : List String) :
    (∀ i s, DetectorCall.webCall i s ∈ (run_analysis_core acad web sentences).calls →
      acad s = none ∧
      DetectorCall.acadCall i s ∈ (run_analysis_core acad web sentences).calls) ∧
    (∀ i s am, acad s = some am →
      (DetectorCall.acadCall i s ∈ (run_analysis_core acad web sentences).calls →
        MatchRecord.academic s i am ∈ (run_analysis_core acad web sentences).all_matches) ∧
      DetectorCall.webCall i s ∉ (run_analysis_core acad web sentences).calls) := by
  have hbase : PriorityInv acad
      { all_matches := check_self_plagiarism sentences,
        matched_sentences_for_external_check := [],
        calls := [] } := by
    constructor
    · intro i s hw
      cases hw
    · intro i s am hc
      cases hc
  have hfinal := foldl_externalCheckStep_inv (priorityInv_step acad web)
    (List.enumFrom 1 sentences) _ hbase
  obtain ⟨h1, h2⟩ := hfinal
  refine ⟨h1, ?_⟩
  intro i s am hsome
  constructor
  · intro hc
    exact h2 i s am hc hsome
  · intro hw
    rw [(h1 i s hw).1] at hsome
    cases hsome

/-- Witness for `academic_priority`: on a single qualifying sentence with
an always-matching academic stub, the academic record is produced and the
web detector is never invoked. -/
theorem academic_priority_witness :
    MatchRecord.academic longDup 1 ⟨"T", "A", "U"⟩ ∈
      (run_analysis_core acadStubAlways webStubNone [longDup]).all_matches ∧
    DetectorCall.webCall 1 longDup ∉
      (run_analysis_core acadStubAlways webStubNone [longDup]).calls := by
  have h := (academic_priority acadStubAlways webStubNone [longDup]).2 1 longDup
    ⟨"T", "A", "U"⟩ rfl
  exact ⟨h.1 (by decide), h.2⟩

/-! ## Threshold exclusion (C3) -/

theorem snd_mem_of_mem_enumFrom {α : Type} :
    ∀ (l : List α) (n : Nat) (p : Nat × α), p ∈ List.enumFrom n l → p.2 ∈ l := by
  intro l
  induction l with
  | nil => intro n p hp; cases hp
  | cons a rest ih =>
    intro n p hp
    rw [show List.enumFrom n (a :: rest) = (n, a) :: List.enumFrom (n + 1) rest from rfl] at hp
    rcases List.mem_cons.mp hp with h | h
    · rw [h]
      exact List.mem_cons_self a rest
    · exact List.mem_cons_of_mem a (ih (n + 1) p h)

/-- A key of `seenInsert m k i` is `k` or a key of `m`. -/
theorem key_of_seenInsert :
    ∀ (m : List (String × List Nat)) (k : String) (i : Nat) (p : String × List Nat),
      p ∈ seenInsert m k i → p.1 = k ∨ ∃ q ∈ m, q.1 = p.1 := by
  intro m
  induction m with
  | nil =>
    intro k i p hp
    rw [show seenInsert [] k i = [(k, [i])] from rfl, List.mem_singleton] at hp
    exact Or.inl (by rw [hp])
  | cons q rest ih =>
    intro k i p hp
    unfold seenInsert at hp
    split at hp
    case isTrue hqk =>
      rcases List.mem_cons.mp hp with h | h
      · exact Or.inl (by rw [h]; exact hqk)
      · exact Or.inr ⟨p, List.mem_cons_of_mem q h, rfl⟩
    case isFalse =>
      rcases List.mem_cons.mp hp with h | h
      · exact Or.inr ⟨q, List.mem_cons_self q rest, by rw [h]⟩
      · rcases ih k i p h with h2 | ⟨q', hq', he⟩
        · exact Or.inl h2
        · exact Or.inr ⟨q', List.mem_cons_of_mem q hq', he⟩

/-- Every key of the `seen_sentences` map built by the self-repetition
detector has a normalized word count above 8 and originates from some
sentence of the document. -/
theorem buildSeen_keys (sentences : List String) :
    ∀ p ∈ buildSeen sentences,
      8 < (pySplit p.1).length ∧ ∃ s ∈ sentences, pyNormalize s = p.1 := by
  have haux : ∀ (l : List (Nat × String)) (m : List (String × List Nat)),
      (∀ q ∈ l, q.2 ∈ sentences) →
      (∀ p ∈ m, 8 < (pySplit p.1).length ∧ ∃ s ∈ sentences, pyNormalize s = p.1) →
      ∀ p ∈ l.foldl selfStep m,
        8 < (pySplit p.1).length ∧ ∃ s ∈ sentences, pyNormalize s = p.1 := by
    intro l
    induction l with
    | nil => intro m _ hm p hp; exact hm p hp
    | cons q rest ih =>
      intro m hl hm p hp
      refine ih (selfStep m q) (fun x hx => hl x (List.mem_cons_of_mem _ hx)) ?_ p hp
      intro r hr
      simp only [selfStep] at hr
      split at hr
      case isTrue hguard =>
        rcases key_of_seenInsert m (pyNormalize q.2) q.1 r hr with h | ⟨q', hq', he⟩
        · rw [h]
          exact ⟨hguard, q.2, hl q (List.mem_cons_self q rest), rfl⟩
        · rw [← he]
          exact hm q' hq'
      case isFalse => exact hm r hr
  intro p hp
  exact haux (List.enumFrom 1 sentences) []
    (fun q hq => snd_mem_of_mem_enumFrom sentences 1 q hq)
    (fun _ h => absurd h (List.not_mem_nil _)) p hp

/-- When some sentence normalizes to `key`, `firstOriginal` returns the
first such sentence: a member of the document whose normalized form is
`key`. -/
theorem firstOriginal_normalized (sentences : List String) (key : String)
    (hex : ∃ s ∈ sentences, pyNormalize s = key) :
    sentences.find? (fun s => pyNormalize s == key) = some (firstOriginal sentences key) ∧
    pyNormalize (firstOriginal sentences key) = key ∧
    firstOriginal sentences key ∈ sentences := by
  obtain ⟨s, hs, hkey⟩ := hex
  have hsome : (sentences.find? fun x => pyNormalize x == key).isSome := by
    rw [List.find?_isSome]
    exact ⟨s, hs, by simp [hkey]⟩
  obtain ⟨s₀, hfind⟩ := Option.isSome_iff_exists.mp hsome
  have hp := List.find?_some hfind
  have hmem := List.mem_of_find?_eq_some hfind
  unfold firstOriginal
  rw [hfind]
  exact ⟨rfl, by simpa using hp, hmem⟩

theorem callThresholdInv_step (acad : String → Option AcademicSource)
    (web : String → Option String) :
    ∀ st p, CallThresholdInv st → CallThresholdInv (externalCheckStep acad web st p) := by
  intro st p hinv
  by_cases hskip : (pySplit (pyStrip p.2)).length < 10 ∨
      pyStrip p.2 ∈ st.matched_sentences_for_external_check
  · simpa only [externalCheckStep, if_pos hskip] using hinv
  · have hlen : 10 ≤ (pySplit (pyStrip p.2)).length := by
      rcases Nat.lt_or_ge (pySplit (pyStrip p.2)).length 10 with h | h
      · exact absurd (Or.inl h) hskip
      · exact h
    have hnew : ∀ (extraCalls : List DetectorCall),
        (∀ c ∈ extraCalls, c = DetectorCall.acadCall p.1 (pyStrip p.2) ∨
          c = DetectorCall.webCall p.1 (pyStrip p.2)) →
        ∀ i s, (DetectorCall.acadCall i s ∈ st.calls ++ extraCalls ∨
          DetectorCall.webCall i s ∈ st.calls ++ extraCalls) →
        10 ≤ (pySplit s).length := by
      intro extraCalls hextra i s hmem
      rcases hmem with hmem | hmem <;> rw [List.mem_append] at hmem
      · rcases hmem with hmem | hmem
        · exact hinv i s (Or.inl hmem)
        · rcases hextra _ hmem with h | h
          · cases h
            exact hlen
          · cases h
      · rcases hmem with hmem | hmem
        · exact hinv i s (Or.inr hmem)
        · rcases hextra _ hmem with h | h
          · cases h
          · cases h
            exact hlen
    rcases hacad : acad (pyStrip p.2) with _ | am
    · rcases hweb : web (pyStrip p.2) with _ | url
      · simp only [externalCheckStep, if_neg hskip, hacad, hweb]
        exact hnew _ (by intro c hc; simpa using hc)
      · simp only [externalCheckStep, if_neg hskip, hacad, hweb]
        exact hnew _ (by intro c hc; simpa using hc)
    · simp only [externalCheckStep, if_neg hskip, hacad]
      exact hnew _ (by intro c hc; exact Or.inl (by simpa using hc))

/-- C3 — threshold exclusion: every self-repetition record's text has a
normalized word count above 8 (so a sentence of 8 or fewer words never
appears in the self-repetition output, duplicated or not), and every
sentence on which an external detector is invoked has at least 10 words
(as the code counts them, on the stripped text). -/
theorem threshold_exclusion (sentences : List String)
    (acad : String → Option AcademicSource) (web : String → Option String) :
    (∀ text lines src, MatchRecord.selfPlag text lines src ∈ check_self_plagiarism sentences →
      8 < (pySplit (pyNormalize text)).length) ∧
    (∀ i s, (DetectorCall.acadCall i s ∈ (run_analysis_core acad web sentences).calls ∨
        DetectorCall.webCall i s ∈ (run_analysis_core acad web sentences).calls) →
      10 ≤ (pySplit s).length) := by
  constructor
  · intro text lines src hmem
    unfold check_self_plagiarism at hmem
    rw [List.mem_filterMap] at hmem
    obtain ⟨p, hp, heq⟩ := hmem
    obtain ⟨hwc, hex⟩ := buildSeen_keys sentences p hp
    split at heq
    · cases heq
      rw [(firstOriginal_normalized sentences p.1 hex).2.1]
      exact hwc
    · cases heq
  · have hbase : CallThresholdInv
        { all_matches := check_self_plagiarism sentences,
          matched_sentences_for_external_check := [],
          calls := [] } := by
      intro i s hmem
      rcases hmem with h | h <;> cases h
    exact foldl_externalCheckStep_inv (callThresholdInv_step acad web)
      (List.enumFrom 1 sentences) _ hbase

/-- Witness for `threshold_exclusion` at a concrete duplicated 10-word
sentence: the produced self-repetition record passes the 8-word bound and
the queried sentence passes the 10-word bound. -/
theorem threshold_exclusion_witness :
    8 < (pySplit (pyNormalize longDup)).length ∧ 10 ≤ (pySplit longDup).length :=
  ⟨(threshold_exclusion [longDup, longDup] acadStubNone webStubNone).1 longDup [1, 2]
      "Repeated 2 times in the document." (by decide),
    (threshold_exclusion [longDup, longDup] acadStubNone webStubNone).2 1 longDup
      (Or.inl (by decide))⟩

/-! ## Export report structure (C5) -/

theorem enumFrom_flatMap_reportMatchLines :
    ∀ (ms : List MatchRecord) (i : Nat),
      (List.enumFrom i ms).flatMap reportMatchLines = specEntries i ms := by
  intro ms
  induction ms with
  | nil => intro i; rfl
  | cons m rest ih =>
    intro i
    show reportMatchLines (i, m) ++ (List.enumFrom (i + 1) rest).flatMap reportMatchLines =
      specEntryLines i m ++ specEntries (i + 1) rest
    rw [ih]
    congr 1
    cases m <;> rfl

/-- C5 counterexample — the claim fails on the code: a self-repetition
entry does not include the repetition count.  For a record repeated 3
times (on lines 1, 2 and 4, with `source` saying "Repeated 3 times"), the
generated report does not contain the digit 3 at all. -/
theorem report_omits_repetition_count :
    ("Repeated 3 times in the document.").data.contains '3' = true ∧
    (generate_report_content "2020-01-01 00:00:00"
        [MatchRecord.selfPlag "alpha beta" [1, 2, 4] "Repeated 3 times in the document."]
        [("Total Sentences", "5"), ("Matches Found", "1")]).data.contains '3' = false := by
  exact ⟨by decide, by decide⟩

/-- C5 (amended) — export report structure: the export document is exactly
the header with the generation timestamp, the summary block with all
summary fields, and one sequentially numbered entry per match record with
its kind, sentence text, position(s) and kind-specific source details —
title/authors/url for academic, url for web, and the occurrence lines
(without the repetition count) for self-repetition. -/
theorem report_structure (timestamp : String) (match_list : List MatchRecord)
    (summary_stats : List (String × String)) :
    generate_report_content timestamp match_list summary_stats =
      report_spec timestamp match_list summary_stats := by
  unfold generate_report_content report_spec
  congr 2
  rcases match_list with _ | ⟨m, rest⟩
  · rfl
  · rw [if_neg (by simp)]
    show (List.enumFrom 1 (m :: rest)).flatMap reportMatchLines = _
    exact enumFrom_flatMap_reportMatchLines (m :: rest) 1

/-! ## Self-repetition correctness (C2) -/

theorem positionsOf_eq_positionsFrom (sentences : List String) (key : String) :
    positionsOf sentences key = positionsFrom 1 sentences key := rfl

theorem lookupSeen_seenInsert_self :
    ∀ (m : List (String × List Nat)) (k : String) (i : Nat),
      lookupSeen (seenInsert m k i) k = some ((lookupSeen m k).getD [] ++ [i]) := by
  intro m
  induction m with
  | nil => intro k i; simp [seenInsert, lookupSeen]
  | cons p rest ih =>
    intro k i
    by_cases h : p.1 = k
    · simp [seenInsert, lookupSeen, h]
    · simp only [seenInsert, lookupSeen, if_neg h]
      exact ih k i

theorem lookupSeen_seenInsert_other :
    ∀ (m : List (String × List Nat)) (k : String) (i : Nat) (k' : String), k' ≠ k →
      lookupSeen (seenInsert m k i) k' = lookupSeen m k' := by
  intro m
  induction m with
  | nil =>
    intro k i k' hne
    have h : ¬(k = k') := fun hh => hne hh.symm
    simp [seenInsert, lookupSeen, h]
  | cons p rest ih =>
    intro k i k' hne
    by_cases h : p.1 = k
    · have h3 : ¬(p.1 = k') := fun hh => hne (hh ▸ h)
      show lookupSeen (if p.1 = k then (p.1, p.2 ++ [i]) :: rest else p :: seenInsert rest k i) k' = _
      rw [if_pos h]
      show (if p.1 = k' then some (p.2 ++ [i]) else lookupSeen rest k') = _
      rw [if_neg h3]
      show _ = (if p.1 = k' then some p.2 else lookupSeen rest k')
      rw [if_neg h3]
    · show lookupSeen (if p.1 = k then (p.1, p.2 ++ [i]) :: rest else p :: seenInsert rest k i) k' = _
      rw [if_neg h]
      show (if p.1 = k' then some p.2 else lookupSeen (seenInsert rest k i) k') = _
      by_cases h2 : p.1 = k'
      · rw [if_pos h2]
        show _ = (if p.1 = k' then some p.2 else lookupSeen rest k')
        rw [if_pos h2]
      · rw [if_neg h2]
        show _ = (if p.1 = k' then some p.2 else lookupSeen rest k')
        rw [if_neg h2]
        exact ih k i k' hne

theorem keysOf_cons (p : String × List Nat) (rest : List (String × List Nat)) :
    keysOf (p :: rest) = p.1 :: keysOf rest := rfl

theorem keysOf_seenInsert :
    ∀ (m : List (String × List Nat)) (k : String) (i : Nat),
      keysOf (seenInsert m k i) =
        if k ∈ keysOf m then keysOf m else keysOf m ++ [k] := by
  intro m
  induction m with
  | nil => intro k i; simp [seenInsert, keysOf]
  | cons p rest ih =>
    intro k i
    by_cases h : p.1 = k
    · have hmem : k ∈ keysOf (p :: rest) := by
        rw [keysOf_cons, List.mem_cons]
        exact Or.inl h.symm
      rw [if_pos hmem]
      show keysOf (if p.1 = k then (p.1, p.2 ++ [i]) :: rest else p :: seenInsert rest k i) = _
      rw [if_pos h, keysOf_cons, keysOf_cons]
    · have hk : k ≠ p.1 := fun hh => h hh.symm
      show keysOf (if p.1 = k then (p.1, p.2 ++ [i]) :: rest else p :: seenInsert rest k i) = _
      rw [if_neg h, keysOf_cons, ih k i]
      by_cases h2 : k ∈ keysOf rest
      · rw [if_pos h2, if_pos (show k ∈ keysOf (p :: rest) by
          rw [keysOf_cons, List.mem_cons]
          exact Or.inr h2), keysOf_cons]
      · rw [if_neg h2, if_neg (show k ∉ keysOf (p :: rest) by
          rw [keysOf_cons, List.mem_cons]
          rintro (hh | hh)
          · exact hk hh
          · exact h2 hh), keysOf_cons, List.cons_append]

theorem nodup_keysOf_seenInsert (m : List (String × List Nat)) (k : String) (i : Nat)
    (h : (keysOf m).Nodup) : (keysOf (seenInsert m k i)).Nodup := by
  rw [keysOf_seenInsert]
  split
  · exact h
  case isFalse hmem =>
    rw [List.nodup_append]
    refine ⟨h, List.nodup_singleton k, ?_⟩
    intro a ha hb
    rw [List.mem_singleton] at hb
    subst hb
    exact hmem ha

theorem nodup_keysOf_buildSeen (sentences : List String) :
    (keysOf (buildSeen sentences)).Nodup := by
  have haux : ∀ (l : List (Nat × String)) (m : List (String × List Nat)),
      (keysOf m).Nodup → (keysOf (l.foldl selfStep m)).Nodup := by
    intro l
    induction l with
    | nil => intro m h; exact h
    | cons q rest ih =>
      intro m h
      refine ih _ ?_
      simp only [selfStep]
      split
      · exact nodup_keysOf_seenInsert _ _ _ h
      · exact h
  exact haux _ [] List.nodup_nil

theorem lookupSeen_eq_some_of_mem :
    ∀ (m : List (String × List Nat)), (keysOf m).Nodup →
      ∀ p ∈ m, lookupSeen m p.1 = some p.2 := by
  intro m
  induction m with
  | nil => intro _ p hp; cases hp
  | cons q rest ih =>
    intro hnd p hp
    rw [keysOf_cons, List.nodup_cons] at hnd
    obtain ⟨hq, hrest⟩ := hnd
    rcases List.mem_cons.mp hp with h | h
    · subst h
      show (if p.1 = p.1 then some p.2 else lookupSeen rest p.1) = some p.2
      rw [if_pos rfl]
    · show (if q.1 = p.1 then some q.2 else lookupSeen rest p.1) = some p.2
      rw [if_neg, ih hrest p h]
      intro he
      apply hq
      rw [he]
      exact List.mem_map.mpr ⟨p, h, rfl⟩
    
theorem mem_of_lookupSeen_eq_some :
    ∀ (m : List (String × List Nat)) (k : String) (ps : List Nat),
      lookupSeen m k = some ps → (k, ps) ∈ m := by
  intro m
  induction m with
  | nil => intro k ps h; cases h
  | cons q rest ih =>
    intro k ps h
    rw [show lookupSeen (q :: rest) k = if q.1 = k then some q.2 else lookupSeen rest k from rfl]
      at h
    split at h
    case isTrue he =>
      cases h
      rw [List.mem_cons]
      left
      rw [← he]
    case isFalse =>
      exact List.mem_cons_of_mem q (ih k ps h)

theorem lookupSeen_foldl_selfStep :
    ∀ (l : List String) (start : Nat) (m : List (String × List Nat)) (key : String),
      lookupSeen ((List.enumFrom start l).foldl selfStep m) key =
        if 8 < (pySplit key).length ∧ positionsFrom start l key ≠ [] then
          some ((lookupSeen m key).getD [] ++ positionsFrom start l key)
        else lookupSeen m key := by
  intro l
  induction l with
  | nil =>
    intro start m key
    rw [if_neg]
    · rfl
    · rintro ⟨_, h⟩
      exact h rfl
  | cons s rest ih =>
    intro start m key
    show lookupSeen ((List.enumFrom (start + 1) rest).foldl selfStep (selfStep m (start, s)))
        key = _
    rw [ih]
    by_cases hn : pyNormalize s = key
    · have hpos : positionsFrom start (s :: rest) key =
          start :: positionsFrom (start + 1) rest key := by
        simp only [positionsFrom]
        show List.filterMap _ ((start, s) :: List.enumFrom (start + 1) rest) = _
        rw [List.filterMap_cons]
        simp [hn]
      by_cases hwc : 8 < (pySplit key).length
      · have hstep : selfStep m (start, s) = seenInsert m key start := by
          show (if 8 < (pySplit (pyNormalize s)).length
            then seenInsert m (pyNormalize s) start else m) = _
          rw [hn, if_pos hwc]
        rw [hstep, hpos, lookupSeen_seenInsert_self]
        by_cases hrest : positionsFrom (start + 1) rest key = []
        · rw [if_neg (by rintro ⟨_, h⟩; exact h hrest),
            if_pos ⟨hwc, List.cons_ne_nil _ _⟩, hrest]
        · rw [if_pos ⟨hwc, hrest⟩, if_pos ⟨hwc, List.cons_ne_nil _ _⟩]
          simp [List.append_assoc]
      · have hstep : selfStep m (start, s) = m := by
          show (if 8 < (pySplit (pyNormalize s)).length
            then seenInsert m (pyNormalize s) start else m) = _
          rw [hn, if_neg hwc]
        rw [hstep, hpos, if_neg (fun h => hwc h.1), if_neg (fun h => hwc h.1)]
    · have hpos : positionsFrom start (s :: rest) key = positionsFrom (start + 1) rest key := by
        simp only [positionsFrom]
        show List.filterMap _ ((start, s) :: List.enumFrom (start + 1) rest) = _
        rw [List.filterMap_cons]
        simp [hn]
      have hlook : lookupSeen (selfStep m (start, s)) key = lookupSeen m key := by
        show lookupSeen (if 8 < (pySplit (pyNormalize s)).length
          then seenInsert m (pyNormalize s) start else m) key = _
        split
        · exact lookupSeen_seenInsert_other m (pyNormalize s) start key (fun h => hn h.symm)
        · rfl
      rw [hlook, hpos]

theorem lookupSeen_buildSeen (sentences : List String) (key : String) :
    lookupSeen (buildSeen sentences) key =
      if 8 < (pySplit key).length ∧ positionsOf sentences key ≠ [] then
        some (positionsOf sentences key)
      else none := by
  have h := lookupSeen_foldl_selfStep sentences 1 [] key
  rw [positionsOf_eq_positionsFrom]
  rw [show lookupSeen [] key = none from rfl] at h
  rw [show (none : Option (List Nat)).getD [] ++ positionsFrom 1 sentences key =
    positionsFrom 1 sentences key from by simp] at h
  exact h

theorem positionsFrom_increasing :
    ∀ (l : List String) (start : Nat) (key : String),
      (∀ i ∈ positionsFrom start l key, start ≤ i) ∧
      List.Pairwise (· < ·) (positionsFrom start l key) := by
  intro l
  induction l with
  | nil =>
    intro start key
    exact ⟨fun i h => absurd h (List.not_mem_nil i), List.Pairwise.nil⟩
  | cons s rest ih =>
    intro start key
    obtain ⟨hge, hpw⟩ := ih (start + 1) key
    by_cases hn : pyNormalize s = key
    · have hred : positionsFrom start (s :: rest) key =
          start :: positionsFrom (start + 1) rest key := by
        simp only [positionsFrom]
        show List.filterMap _ ((start, s) :: List.enumFrom (start + 1) rest) = _
        rw [List.filterMap_cons]
        simp [hn]
      rw [hred]
      constructor
      · intro i hi
        rcases List.mem_cons.mp hi with h | h
        · omega
        · have := hge i h
          omega
      · exact List.Pairwise.cons (fun i hi => by have := hge i hi; omega) hpw
    · have hred : positionsFrom start (s :: rest) key = positionsFrom (start + 1) rest key := by
        simp only [positionsFrom]
        show List.filterMap _ ((start, s) :: List.enumFrom (start + 1) rest) = _
        rw [List.filterMap_cons]
        simp [hn]
      rw [hred]
      exact ⟨fun i hi => by have := hge i hi; omega, hpw⟩

theorem check_self_plagiarism_eq (sentences : List String) :
    check_self_plagiarism sentences =
      (buildSeen sentences).filterMap (selfRecordOf sentences) := rfl

theorem filter_selfRecords_nil (sentences : List String) (key : String) :
    ∀ (M : List (String × List Nat)),
      (∀ p ∈ M, p.1 ≠ key ∧ ∃ s ∈ sentences, pyNormalize s = p.1) →
      (M.filterMap (selfRecordOf sentences)).filter (matchesNormalized key) = [] := by
  intro M
  induction M with
  | nil => intro _; rfl
  | cons q rest ih =>
    intro hall
    obtain ⟨hqk, hqex⟩ := hall q (List.mem_cons_self _ _)
    have hrest := fun p hp => hall p (List.mem_cons_of_mem _ hp)
    have hnormq : pyNormalize (firstOriginal sentences q.1) = q.1 :=
      (firstOriginal_normalized sentences q.1 hqex).2.1
    by_cases hq : 1 < q.2.length
    · have hfq : selfRecordOf sentences q =
          some (MatchRecord.selfPlag (firstOriginal sentences q.1) q.2
            ("Repeated " ++ toString q.2.length ++ " times in the document.")) := by
        simp only [selfRecordOf]
        rw [if_pos hq]
      rw [List.filterMap_cons_some hfq, List.filter_cons_of_neg]
      · exact ih hrest
      · simp [matchesNormalized, sentenceOf, hnormq, hqk]
    · have hfq : selfRecordOf sentences q = none := by
        simp only [selfRecordOf]
        rw [if_neg hq]
      rw [List.filterMap_cons_none hfq]
      exact ih hrest

theorem filter_selfRecords (sentences : List String) (key : String) :
    ∀ (M : List (String × List Nat)),
      (keysOf M).Nodup →
      (∀ p ∈ M, ∃ s ∈ sentences, pyNormalize s = p.1) →
      (M.filterMap (selfRecordOf sentences)).filter (matchesNormalized key) =
        (match lookupSeen M key with
         | some ps =>
           if 1 < ps.length then
             [MatchRecord.selfPlag (firstOriginal sentences key) ps
               ("Repeated " ++ toString ps.length ++ " times in the document.")]
           else []
         | none => []) := by
  intro M
  induction M with
  | nil => intro _ _; rfl
  | cons q rest ih =>
    intro hnd hall
    rw [keysOf_cons, List.nodup_cons] at hnd
    obtain ⟨hq1, hrestnd⟩ := hnd
    have hqex := hall q (List.mem_cons_self _ _)
    have hrestall := fun p hp => hall p (List.mem_cons_of_mem _ hp)
    have hnormq : pyNormalize (firstOriginal sentences q.1) = q.1 :=
      (firstOriginal_normalized sentences q.1 hqex).2.1
    by_cases hk : q.1 = key
    · have hlk : lookupSeen (q :: rest) key = some q.2 := by
        show (if q.1 = key then some q.2 else lookupSeen rest key) = some q.2
        rw [if_pos hk]
      rw [hlk]
      show _ = if 1 < q.2.length then
          [MatchRecord.selfPlag (firstOriginal sentences key) q.2
            ("Repeated " ++ toString q.2.length ++ " times in the document.")]
        else []
      have hrestnone :
          (rest.filterMap (selfRecordOf sentences)).filter (matchesNormalized key) = [] := by
        apply filter_selfRecords_nil
        intro p hp
        refine ⟨?_, hrestall p hp⟩
        intro he
        apply hq1
        have hmem : p.1 ∈ keysOf rest := List.mem_map.mpr ⟨p, hp, rfl⟩
        rw [he, ← hk] at hmem
        exact hmem
      by_cases hq : 1 < q.2.length
      · have hfq : selfRecordOf sentences q =
            some (MatchRecord.selfPlag (firstOriginal sentences q.1) q.2
              ("Repeated " ++ toString q.2.length ++ " times in the document.")) := by
          simp only [selfRecordOf]
          rw [if_pos hq]
        have hpred : matchesNormalized key
            (MatchRecord.selfPlag (firstOriginal sentences q.1) q.2
              ("Repeated " ++ toString q.2.length ++ " times in the document.")) = true := by
          simp only [matchesNormalized, sentenceOf]
          rw [hnormq, hk]
          simp
        rw [List.filterMap_cons_some hfq, List.filter_cons_of_pos hpred, hrestnone, if_pos hq,
          hk]
      · have hfq : selfRecordOf sentences q = none := by
          simp only [selfRecordOf]
          rw [if_neg hq]
        rw [List.filterMap_cons_none hfq, if_neg hq]
        exact hrestnone
    · have hlk : lookupSeen (q :: rest) key = lookupSeen rest key := by
        show (if q.1 = key then some q.2 else lookupSeen rest key) = _
        rw [if_neg hk]
      rw [hlk]
      by_cases hq : 1 < q.2.length
      · have hfq : selfRecordOf sentences q =
            some (MatchRecord.selfPlag (firstOriginal sentences q.1) q.2
              ("Repeated " ++ toString q.2.length ++ " times in the document.")) := by
          simp only [selfRecordOf]
          rw [if_pos hq]
        rw [List.filterMap_cons_some hfq, List.filter_cons_of_neg
          (by simp [matchesNormalized, sentenceOf, hnormq, hk])]
        exact ih hrestnd hrestall
      · have hfq : selfRecordOf sentences q = none := by
          simp only [selfRecordOf]
          rw [if_neg hq]
        rw [List.filterMap_cons_none hfq]
        exact ih hrestnd hrestall

/-- C2 — self-repetition correctness: for every sentence sequence and every
normalized form `key` of more than 8 words occurring at more than one
1-based position, the detector output contains exactly one record for that
form; its sentence text is the first original sentence normalizing to
`key` (also a member of the document), its positions are exactly the
ascending list of all occurrence positions, and its `source` message
carries the occurrence count.  (The detector is a total Lean function, so
it always returns a — possibly empty — list.) -/
theorem self_repetition_correctness (sentences : List String) (key : String)
    (hwc : 8 < (pySplit key).length)
    (hcount : 1 < (positionsOf sentences key).length) :
    sentences.find? (fun s => pyNormalize s == key) = some (firstOriginal sentences key) ∧
    firstOriginal sentences key ∈ sentences ∧
    pyNormalize (firstOriginal sentences key) = key ∧
    (check_self_plagiarism sentences).filter (matchesNormalized key) =
      [MatchRecord.selfPlag (firstOriginal sentences key) (positionsOf sentences key)
        ("Repeated " ++ toString (positionsOf sentences key).length ++
          " times in the document.")] ∧
    List.Pairwise (· < ·) (positionsOf sentences key) := by
  have hne : positionsOf sentences key ≠ [] := by
    intro h
    rw [h] at hcount
    exact absurd hcount (by decide)
  have hex : ∃ s ∈ sentences, pyNormalize s = key := by
    obtain ⟨i, hi⟩ := List.exists_mem_of_ne_nil _ hne
    rw [positionsOf, List.mem_filterMap] at hi
    obtain ⟨p, hp, hpi⟩ := hi
    split at hpi
    case isTrue hnorm => exact ⟨p.2, snd_mem_of_mem_enumFrom sentences 1 p hp, hnorm⟩
    case isFalse => cases hpi
  obtain ⟨hfind, hnorm, hmem⟩ := firstOriginal_normalized sentences key hex
  have hlk : lookupSeen (buildSeen sentences) key = some (positionsOf sentences key) := by
    rw [lookupSeen_buildSeen, if_pos ⟨hwc, hne⟩]
  have hmain := filter_selfRecords sentences key (buildSeen sentences)
    (nodup_keysOf_buildSeen sentences)
    (fun p hp => (buildSeen_keys sentences p hp).2)
  rw [hlk] at hmain
  refine ⟨hfind, hmem, hnorm, ?_,
    by rw [positionsOf_eq_positionsFrom]; exact (positionsFrom_increasing sentences 1 key).2⟩
  rw [check_self_plagiarism_eq, hmain]
  show (if 1 < (positionsOf sentences key).length then
      [MatchRecord.selfPlag (firstOriginal sentences key) (positionsOf sentences key)
        ("Repeated " ++ toString (positionsOf sentences key).length ++
          " times in the document.")]
    else []) = _
  rw [if_pos hcount]

/-- Witness for `self_repetition_correctness` on the specification's
scenario input. -/
theorem self_repetition_correctness_witness :
    scenarioSentences.find? (fun s => pyNormalize s == scenarioKey) =
      some (firstOriginal scenarioSentences scenarioKey) ∧
    firstOriginal scenarioSentences scenarioKey ∈ scenarioSentences ∧
    pyNormalize (firstOriginal scenarioSentences scenarioKey) = scenarioKey ∧
    (check_self_plagiarism scenarioSentences).filter (matchesNormalized scenarioKey) =
      [MatchRecord.selfPlag (firstOriginal scenarioSentences scenarioKey)
        (positionsOf scenarioSentences scenarioKey)
        ("Repeated " ++ toString (positionsOf scenarioSentences scenarioKey).length ++
          " times in the document.")] ∧
    List.Pairwise (· < ·) (positionsOf scenarioSentences scenarioKey) :=
  self_repetition_correctness scenarioSentences scenarioKey (by decide) (by decide)
